import Mathlib

/-!
Verification of the nested-intervals tree engine (django-nested-intervals).

The development shallowly embeds the Python sources:
  * `intervals.py`   — pure bound arithmetic and interval allocation,
  * `managers.py`    — tree mutation (insert, move, rebalance),
  * `models.py`      — node records, derived queries (descendants, children,
                       siblings, parent), save semantics.

The persistent store is modelled as a list of node records; Django querysets
become list filters ordered by `(tree_id, left)` (the manager ordering).
Decimal bounds are modelled as rationals.  The module-level decimal context
(`getcontext().prec = DECIMAL_PLACES`, significant-digit rounding with
ROUND_HALF_EVEN) is modelled explicitly by `dround` for the claims about
precision exhaustion; the structural claims use exact rational arithmetic,
which is the same code with the rounding map removed.
-/

namespace NestedIntervals

/-- Result of `_calculate_sub_interval` / interval allocation: the dict
`{"left": .., "right": .., "increment": ..}`. -/
structure SubInterval where
  left : ℚ
  right : ℚ
  increment : ℚ
deriving DecidableEq

/-- Error surface of the embedded core.  `intervalTooSmall` and `invalidMove`
are the exception classes from `exceptions.py`; the remaining constructors
stand for the `ValueError`s raised in `intervals.py`/`managers.py`
(`invalidPosition` for the sibling-of-a-root raise, `unsavedReference` for the
unsaved-node raises, `alreadySaved` for inserting a saved node), for the
`AttributeError` a `None` dereference would raise (`attributeError`), and for
`DoesNotExist`/`MultipleObjectsReturned` from `.get()` and `refresh_from_db`
(`doesNotExist`). -/
inductive TreeError
  | intervalTooSmall
  | invalidMove
  | invalidPosition
  | unsavedReference
  | alreadySaved
  | attributeError
  | doesNotExist
deriving DecidableEq

/-- The four `position` tokens accepted by `get_interval_for_insertion_relative_to`
(`"first-child"`, `"last-child"`, `"left"`, `"right"`).  An arbitrary string is
out of the enumeration, so the invalid-token `ValueError` branch has no
counterpart here. -/
inductive Position
  | firstChild
  | lastChild
  | left
  | right
deriving DecidableEq

/-- Embedding of `_calculate_sub_interval(outerleft, outerright, count)` from
`intervals.py`, with exact rational arithmetic. -/
def calculate_sub_interval (outerleft outerright : ℚ) (count : ℕ) : Except TreeError SubInterval :=
  let outerrange := outerright - outerleft
  let increment := outerrange / (2 * (count : ℚ) + 1)
  let result : SubInterval :=
    { left := outerleft + increment, right := outerright - increment, increment := increment }
  if result.left = result.right then .error .intervalTooSmall else .ok result

/-- Embedding of `get_range_conversion_f_expression_generator(old_left, old_right, new_left,
new_right)` from `intervals.py`: the affine map applied to each stored field,
`((x - old_left) * new_size) / old_size + new_left`. -/
def range_conversion (old_left old_right new_left new_right : ℚ) : ℚ → ℚ :=
  let old_size := old_right - old_left
  let new_size := new_right - new_left
  fun x => (x - old_left) * new_size / old_size + new_left

/-- A persisted node row: the nested-intervals fields of `NestedIntervalsModel`
(`left`, `right` are `DecimalField`s, `level` a `PositiveIntegerField` — kept
as `ℤ` because the Python code manipulates it with plain integer arithmetic —
and `tree_id` a `UUIDField`, modelled as a natural number), plus the primary
key `pk`. -/
structure NodeRec where
  pk : ℕ
  left : ℚ
  right : ℚ
  level : ℤ
  tree_id : ℕ
deriving DecidableEq

/-- The node store: the set of saved rows of one model table. -/
abbrev Db := List NodeRec

/-- The manager base ordering: `order_by("tree_id", "left")`
(`NestedIntervalsManager.get_queryset`). -/
def tree_order (a b : NodeRec) : Prop :=
  a.tree_id < b.tree_id ∨ (a.tree_id = b.tree_id ∧ a.left ≤ b.left)

instance : DecidableRel tree_order := fun a b => by
  unfold tree_order; infer_instance

/-- Rows of a queryset in manager order. -/
def tree_sorted (db : Db) : Db :=
  List.insertionSort tree_order db

/-- Embedding of `NestedIntervalsModel.get_descendants(include_self)`: membership is decided
from `tree_id` and the candidate `left` bound alone.
With `include_self=True` the filter is
`Q(left__gte=self.left, left__lte=self.right, tree_id=self.tree_id) | Q(pk=self.pk)`;
without it, `left__gt=self.left, left__lt=self.right, tree_id=self.tree_id`
excluding `pk=self.pk`. -/
def descendant_pred (n r : NodeRec) : Prop :=
  r.left > n.left ∧ r.left < n.right ∧ r.tree_id = n.tree_id ∧ r.pk ≠ n.pk

instance (n r : NodeRec) : Decidable (descendant_pred n r) := by
  unfold descendant_pred; infer_instance

def get_descendants (db : Db) (n : NodeRec) (include_self : Bool) : Db :=
  if include_self then
    tree_sorted (db.filter (fun r =>
      decide ((r.left ≥ n.left ∧ r.left ≤ n.right ∧ r.tree_id = n.tree_id) ∨ r.pk = n.pk)))
  else
    tree_sorted (db.filter (fun r => decide (descendant_pred n r)))

/-- Embedding of `NestedIntervalsModel.get_children()`:
`self.get_descendants().filter(level=self.level+1)`. -/
def get_children (db : Db) (n : NodeRec) : Db :=
  (get_descendants db n false).filter (fun r => decide (r.level = n.level + 1))

/-- Embedding of `NestedIntervalsModel.get_descendant_count()`:
`self.get_descendants().count()`. -/
def get_descendant_count (db : Db) (n : NodeRec) : ℕ :=
  (get_descendants db n false).length

/-- The database part of the `parent` property: the first row with
`left__lt=self.left, right__gt=self.right, level=self.level-1,
tree_id=self.tree_id` (`None` at `level == 0`). -/
def parent_query (db : Db) (n : NodeRec) : Option NodeRec :=
  if n.level = 0 then none
  else
    (tree_sorted (db.filter (fun r =>
      decide (r.left < n.left ∧ r.right > n.right ∧ r.level = n.level - 1 ∧
        r.tree_id = n.tree_id)))).head?

/-- Embedding of `is_descendant_of` restricted to saved rows (`include_self=False`):
different `tree_id` means `False`, otherwise strict bound containment. -/
def is_descendant_of (self other : NodeRec) : Bool :=
  if self.tree_id ≠ other.tree_id then false
  else decide (self.left > other.left ∧ self.right < other.right)

/-- Embedding of `is_ancestor_of` restricted to saved rows (`include_self=False`):
`other.is_descendant_of(self)`. -/
def is_ancestor_of (self other : NodeRec) : Bool :=
  is_descendant_of other self

/-- The deferred-parent slot `_new_parent`: `False` until the `parent` setter
runs, afterwards the assigned value (a saved node or `None`). -/
inductive NewParent
  | notSet
  | set (t : Option NodeRec)
deriving DecidableEq

/-- An in-memory model instance: its nested-intervals fields, whether it is
saved (`_is_saved()`: `pk` and `tree_id` are present), the `_new_parent` slot
and the `_nested_intervals_fields_have_changed` dirty bit. -/
structure NodeObj where
  row : NodeRec
  saved : Bool
  newParent : NewParent
  dirty : Bool
deriving DecidableEq

/-- View a fetched row as a model instance. -/
def asObj (r : NodeRec) : NodeObj :=
  { row := r, saved := true, newParent := .notSet, dirty := false }

/-- The `parent` property getter: a pending `_new_parent` (or being unsaved)
short-circuits the database lookup (`self._new_parent or None`); at level 0
there is no parent; otherwise the parent is computed from the store. -/
def obj_parent (db : Db) (o : NodeObj) : Option NodeRec :=
  match o.newParent with
  | .set p => p
  | .notSet =>
    if ¬ o.saved then none
    else parent_query db o.row

/-- The `parent` property setter: records the new value in `_new_parent` and
marks the nested-intervals fields dirty.  (The setter unsaved-parent
`ValueError` cannot arise here because pending parents are stored as saved
rows.) -/
def set_parent (o : NodeObj) (newparent : Option NodeRec) : NodeObj :=
  { o with dirty := true, newParent := .set newparent }

/-- Embedding of `is_root_node()`: `self.level == 0`. -/
def is_root_node (o : NodeObj) : Bool :=
  decide (o.row.level = 0)

/-- Embedding of `get_next_sibling()`: `None` for a root, otherwise the first of the
parent children with `left__gt=self.right`; dereferencing a missing parent
is the `AttributeError` the Python would raise. -/
def get_next_sibling (db : Db) (o : NodeObj) : Except TreeError (Option NodeRec) :=
  if is_root_node o then .ok none
  else
    match obj_parent db o with
    | none => .error .attributeError
    | some p => .ok ((get_children db p).filter (fun r => decide (r.left > o.row.right))).head?

/-- Embedding of `get_previous_sibling()`: `None` for a root, otherwise the last of the
parent children with `right__lt=self.left`. -/
def get_previous_sibling (db : Db) (o : NodeObj) : Except TreeError (Option NodeRec) :=
  if is_root_node o then .ok none
  else
    match obj_parent db o with
    | none => .error .attributeError
    | some p => .ok ((get_children db p).filter (fun r => decide (r.right < o.row.left))).getLast?

/-- Embedding of `get_interval_for_insertion_relative_to(target, position, count)` from
`intervals.py` over the embedded store.  The `position` token check is
subsumed by the `Position` enumeration. -/
def get_interval_for_insertion_relative_to (db : Db) (target : Option NodeObj)
    (position : Position) (count : ℕ) : Except TreeError SubInterval :=
  match target with
  | none =>
    .ok { left := 0, right := 1, increment := 1 / (2 * (count : ℚ) - 1) }
  | some t =>
    if ¬ t.saved then .error .unsavedReference
    else if (position = .left ∨ position = .right) ∧ is_root_node t then
      .error .invalidPosition
    else
      match position with
      | .firstChild =>
        match (get_children db t.row).head? with
        | some first_child => calculate_sub_interval t.row.left first_child.left count
        | none => calculate_sub_interval t.row.left t.row.right count
      | .lastChild =>
        match (get_children db t.row).getLast? with
        | some last_child => calculate_sub_interval last_child.right t.row.right count
        | none => calculate_sub_interval t.row.left t.row.right count
      | .left =>
        match get_previous_sibling db t with
        | .error e => .error e
        | .ok (some previous) => calculate_sub_interval previous.right t.row.left count
        | .ok none =>
          match obj_parent db t with
          | none => .error .attributeError
          | some p => calculate_sub_interval p.left t.row.left count
      | .right =>
        match get_next_sibling db t with
        | .error e => .error e
        | .ok (some nxt) => calculate_sub_interval t.row.right nxt.left count
        | .ok none =>
          match obj_parent db t with
          | none => .error .attributeError
          | some p => calculate_sub_interval t.row.right p.right count

/-- Embedding of `NestedIntervalsManager.root_node(tree_id)`:
`self.filter(tree_id=tree_id, level=0).get()` — `.get()` succeeds exactly when
there is one matching row. -/
def root_node (db : Db) (tree_id : ℕ) : Option NodeRec :=
  match db.filter (fun r => decide (r.tree_id = tree_id ∧ r.level = 0)) with
  | [r] => some r
  | _ => none

/-- Embedding of `self.filter(pk=node.pk).update(left=left, right=right)` from
`_rebalance_helper`. -/
def update_bounds (db : Db) (pk : ℕ) (new_left new_right : ℚ) : Db :=
  db.map (fun x => if x.pk = pk then { x with left := new_left, right := new_right } else x)

mutual

/-- Embedding of `NestedIntervalsManager._rebalance_helper(node, left, increment)`: assigns
`left`, recurses into `node.get_children()` (a fresh query against the current
store, using the fetched node bounds), writes the node row, and returns
the advanced cursor.  The Python recursion carries no fuel; the fuel argument
only makes the embedding total, and `none` means the fuel ran out. -/
def rebalance_helper : ℕ → Db → NodeRec → ℚ → ℚ → Option (Db × ℚ)
  | 0, _, _, _, _ => none
  | fuel + 1, db, node, left, increment =>
    match rebalance_children fuel db (get_children db node) (left + increment) increment with
    | none => none
    | some (db2, right) => some (update_bounds db2 node.pk left right, right + increment)
termination_by fuel _ _ _ _ => (fuel, 0)

/-- The `for child in node.get_children()` loop of `_rebalance_helper`,
threading the store and the cursor through the children snapshot. -/
def rebalance_children : ℕ → Db → List NodeRec → ℚ → ℚ → Option (Db × ℚ)
  | _, db, [], right, _ => some (db, right)
  | fuel, db, child :: rest, right, increment =>
    match rebalance_helper fuel db child right increment with
    | none => none
    | some (db2, right2) => rebalance_children fuel db2 rest right2 increment
termination_by fuel _ children _ _ => (fuel, children.length + 1)

end

/-- Embedding of `NestedIntervalsManager.rebalance_tree(tree_id)`: finds the root, counts
the whole tree (`root.get_descendants(include_self=True).count()`), obtains
the root-level interval from
`get_interval_for_insertion_relative_to(None, "last-child", count=...)` and
lays the tree out with its `left` and `increment`. -/
def rebalance_tree (fuel : ℕ) (db : Db) (tree_id : ℕ) : Option Db :=
  match root_node db tree_id with
  | none => none
  | some root =>
    let node_count := (get_descendants db root true).length
    match get_interval_for_insertion_relative_to db none .lastChild node_count with
    | .error _ => none
    | .ok interval =>
      (rebalance_helper fuel db root interval.left interval.increment).map Prod.fst

/-- Embedding of `refresh_from_db()`: reload the instance fields from its row. -/
def refresh_from_db (db : Db) (o : NodeObj) : Option NodeObj :=
  (db.find? (fun r => r.pk == o.row.pk)).map (fun r => { o with row := r })

/-- Embedding of `NestedIntervalsManager.get_interval_for_insertion_relative_to_with_rebalance`:
try the allocation; on `IntervalTooSmall` rebalance the target tree, refresh
the target from the store, and retry once with the default `count=1`.  Errors
carry the store state at the moment of the raise (a failing `rebalance_tree` —
a failed root `.get()`, or exhausted fuel — is reported as `doesNotExist`; a
`None` target reaching the except-branch would be an `AttributeError` on
`target.tree_id`). -/
def get_interval_with_rebalance (fuel : ℕ) (db : Db) (target : Option NodeObj)
    (position : Position) (count : ℕ) : Except (TreeError × Db) (Db × SubInterval) :=
  match get_interval_for_insertion_relative_to db target position count with
  | .ok interval => .ok (db, interval)
  | .error .intervalTooSmall =>
    match target with
    | none => .error (.attributeError, db)
    | some t =>
      match rebalance_tree fuel db t.row.tree_id with
      | none => .error (.doesNotExist, db)
      | some db2 =>
        match refresh_from_db db2 t with
        | none => .error (.doesNotExist, db2)
        | some t2 =>
          match get_interval_for_insertion_relative_to db2 (some t2) position 1 with
          | .ok interval => .ok (db2, interval)
          | .error e => .error (e, db2)
  | .error e => .error (e, db)

/-- Django model equality (`node == target`): same table and equal primary
keys; an unsaved instance is only equal to itself, so it is never equal to
another instance. -/
def node_eq (node t : NodeObj) : Bool :=
  node.saved && t.saved && node.row.pk == t.row.pk

/-- Embedding of `node.is_ancestor_of(target)` as called by `_move_node`: the
`raise_if_unsaved` decorators on `is_ancestor_of` (receiver `node`) and
`is_descendant_of` (receiver `target`) fire first. -/
def is_ancestor_of_checked (node t : NodeObj) : Except TreeError Bool :=
  if ¬ node.saved then .error .unsavedReference
  else if ¬ t.saved then .error .unsavedReference
  else .ok (is_ancestor_of node.row t.row)

/-- The cycle check at the top of `_move_node`: `InvalidMove` when
`node == target` or `target` is set and `node.is_ancestor_of(target)`. -/
def move_legality (node : NodeObj) (target : Option NodeObj) : Except TreeError Unit :=
  match target with
  | none => .ok ()
  | some t =>
    if node_eq node t then .error .invalidMove
    else
      match is_ancestor_of_checked node t with
      | .error e => .error e
      | .ok true => .error .invalidMove
      | .ok false => .ok ()

/-- Embedding of `NestedIntervalsManager._move_node(node, target, position)`.  The source
duplicates the legality check over the two position groups; both branches run
the same test.  Then it counts descendants, allocates (with rebalance-retry)
`count = descendant_count + 1`, derives the linear transform from the node
in-memory bounds, updates every descendant row in one batch as a function of
the row own prior values, and finally rewrites the node in-memory fields.
`fresh_tree` stands for the `uuid.uuid4()` drawn when detaching to a new root.
Errors carry the store state at the moment of the raise. -/
def _move_node (fuel : ℕ) (db : Db) (node : NodeObj) (target : Option NodeObj)
    (position : Position) (fresh_tree : ℕ) : Except (TreeError × Db) (Db × NodeObj) :=
  let legality : Except TreeError Unit :=
    match position with
    | .lastChild | .firstChild => move_legality node target
    | .left | .right => move_legality node target
  match legality with
  | .error e => .error (e, db)
  | .ok _ =>
    if ¬ node.saved then .error (.unsavedReference, db)
    else
      let descendant_count := get_descendant_count db node.row
      match get_interval_with_rebalance fuel db target position (descendant_count + 1) with
      | .error (e, db2) => .error (e, db2)
      | .ok (db2, interval) =>
        let converter := range_conversion node.row.left node.row.right interval.left interval.right
        let level_offset : ℤ :=
          match target with
          | none => - node.row.level
          | some t =>
            match position with
            | .left | .right => t.row.level - node.row.level
            | _ => t.row.level + 1 - node.row.level
        let new_tree_id : Option ℕ :=
          match target with
          | none => some fresh_tree
          | some t => if t.row.tree_id ≠ node.row.tree_id then some t.row.tree_id else none
        let db3 :=
          if descendant_count ≠ 0 then
            db2.map (fun r =>
              if decide (descendant_pred node.row r) then
                { r with
                  left := converter r.left,
                  right := converter r.right,
                  tree_id := new_tree_id.getD r.tree_id,
                  level := if level_offset ≠ 0 then r.level + level_offset else r.level }
              else r)
          else db2
        let row2 : NodeRec :=
          { node.row with
            left := interval.left,
            right := interval.right,
            level := node.row.level + level_offset,
            tree_id := new_tree_id.getD node.row.tree_id }
        .ok (db3, { node with row := row2, dirty := true })

/-- The write performed by the base `Model.save()`: replace the instance row
(or insert it if absent). -/
def base_save (db : Db) (o : NodeObj) : Db :=
  if db.any (fun r => r.pk == o.row.pk) then
    db.map (fun r => if r.pk = o.row.pk then o.row else r)
  else db ++ [o.row]

/-- Embedding of `NestedIntervalsManager.move_node`: `_move_node` followed by
`node.save(nested_intervals_update_in_progress=True)` (which just writes the
row); the `@transaction.atomic` decorator rolls the store back to its initial
state when anything raises. -/
def move_node (fuel : ℕ) (db : Db) (node : NodeObj) (target : Option NodeObj)
    (position : Position) (fresh_tree : ℕ) : Except (TreeError × Db) (Db × NodeObj) :=
  match _move_node fuel db node target position fresh_tree with
  | .error (e, _) => .error (e, db)
  | .ok (db2, node2) =>
    let node3 := { node2 with dirty := false }
    .ok (base_save db2 node3, node3)

/-- Embedding of `NestedIntervalsManager.insert_node(node, target, position, save=False)`:
set up the unsaved node fields relative to the target (the caller `save()`
performs the write); `@transaction.atomic` rolls back on errors. -/
def insert_node (fuel : ℕ) (db : Db) (node : NodeObj) (target : Option NodeObj)
    (position : Position) (fresh_tree : ℕ) : Except (TreeError × Db) (Db × NodeObj) :=
  if node.saved then .error (.alreadySaved, db)
  else
    match target with
    | none =>
      .ok (db, { node with
        dirty := true,
        row := { node.row with level := 0, left := 0, right := 1, tree_id := fresh_tree } })
    | some t =>
      match get_interval_with_rebalance fuel db (some t) position 1 with
      | .error (e, _) => .error (e, db)
      | .ok (db2, interval) =>
        let lvl : ℤ :=
          if position = .firstChild ∨ position = .lastChild then t.row.level + 1 else t.row.level
        .ok (db2, { node with
          dirty := true,
          row := { node.row with
            left := interval.left, right := interval.right, level := lvl,
            tree_id := t.row.tree_id } })

/-- Embedding of `NestedIntervalsModel.save()`: outside an internal update, an unsaved
instance is first inserted as the last child of its pending parent (or as a
new root), and a saved instance with a pending `_new_parent` is moved; only
after a successful move/insert is `_new_parent` reset to its `False` sentinel.
The final base write persists the row (`fresh_pk` stands for the primary key
the store assigns on first insert); `@transaction.atomic` restores the
original store when anything raises. -/
def node_save (fuel : ℕ) (db : Db) (o : NodeObj) (fresh_tree fresh_pk : ℕ)
    (update_in_progress : Bool) : Except (TreeError × Db) (Db × NodeObj) :=
  let core : Except (TreeError × Db) (Db × NodeObj) :=
    if update_in_progress then .ok (db, o)
    else
      if ¬ o.saved then
        let tgt : Option NodeObj :=
          match o.newParent with
          | .notSet => none
          | .set none => none
          | .set (some p) => some (asObj p)
        match insert_node fuel db o tgt .lastChild fresh_tree with
        | .error (e, db2) => .error (e, db2)
        | .ok (db2, o2) => .ok (db2, { o2 with newParent := .notSet })
      else
        match o.newParent with
        | .notSet => .ok (db, o)
        | .set p =>
          match _move_node fuel db o (p.map asObj) .lastChild fresh_tree with
          | .error (e, db2) => .error (e, db2)
          | .ok (db2, o2) => .ok (db2, { o2 with newParent := .notSet })
  match core with
  | .error (e, _) => .error (e, db)
  | .ok (db2, o2) =>
    let o3 :=
      if o2.saved then o2 else { o2 with saved := true, row := { o2.row with pk := fresh_pk } }
    .ok (base_save db2 o3, { o3 with dirty := false })

/-- ROUND_HALF_EVEN to an integer. -/
def roundHE (x : ℚ) : ℤ :=
  if Int.fract x < 1/2 then ⌊x⌋
  else if 1/2 < Int.fract x then ⌊x⌋ + 1
  else if Even ⌊x⌋ then ⌊x⌋ else ⌊x⌋ + 1

/-- The decimal context of `intervals.py` (`getcontext().prec = DECIMAL_PLACES`):
every arithmetic result is rounded to `prec` significant digits with
ROUND_HALF_EVEN.  `10 ^ (Int.log 10 |x| + 1 - prec)` is the quantum of the
rounded result. -/
def dround (prec : ℕ) (x : ℚ) : ℚ :=
  if x = 0 then 0
  else
    roundHE (x / (10:ℚ) ^ (Int.log 10 |x| + 1 - prec)) * (10:ℚ) ^ (Int.log 10 |x| + 1 - prec)

/-- The increment computed by `_calculate_sub_interval` under the decimal
context: every operation of
`increment = (outerright - outerleft) / (Decimal("2") * count + Decimal("1"))`
rounds its result to `prec` significant digits. -/
def sub_interval_increment_dec (prec : ℕ) (outerleft outerright : ℚ) (count : ℕ) : ℚ :=
  let outerrange := dround prec (outerright - outerleft)
  let denom := dround prec (dround prec (2 * (count : ℚ)) + 1)
  dround prec (outerrange / denom)

/-- Embedding of `_calculate_sub_interval` under the decimal context: the additions
computing `left` and `right` also round, and the `IntervalTooSmall` raise
compares the rounded endpoints. -/
def calculate_sub_interval_dec (prec : ℕ) (outerleft outerright : ℚ) (count : ℕ) :
    Except TreeError SubInterval :=
  let increment := sub_interval_increment_dec prec outerleft outerright count
  let result : SubInterval :=
    { left := dround prec (outerleft + increment),
      right := dround prec (outerright - increment),
      increment := increment }
  if result.left = result.right then .error .intervalTooSmall else .ok result

/-- Claim C2: for every outer range with `outer_left < outer_right` and every
`count ≥ 1`, the sub-range allocation computes
`increment = (outer_right - outer_left) / (2*count + 1)` and (never failing
under these hypotheses) returns `left = outer_left + increment` and
`right = outer_right - increment`. -/
theorem c2_sub_interval_formulas (outerleft outerright : ℚ) (count : ℕ)
    (hlt : outerleft < outerright) (hc : 1 ≤ count) :
    calculate_sub_interval outerleft outerright count =
      .ok { left := outerleft + (outerright - outerleft) / (2 * (count : ℚ) + 1),
            right := outerright - (outerright - outerleft) / (2 * (count : ℚ) + 1),
            increment := (outerright - outerleft) / (2 * (count : ℚ) + 1) } := by
  have hden : (0:ℚ) < 2 * (count : ℚ) + 1 := by positivity
  have hcq : (1:ℚ) ≤ (count : ℚ) := by exact_mod_cast hc
  have hne : outerleft + (outerright - outerleft) / (2 * (count : ℚ) + 1) ≠
      outerright - (outerright - outerleft) / (2 * (count : ℚ) + 1) := by
    intro h
    have hw : (0:ℚ) < outerright - outerleft := by linarith
    have h2 : 2 * ((outerright - outerleft) / (2 * (count : ℚ) + 1)) = outerright - outerleft := by
      linarith
    rw [mul_div_assoc', div_eq_iff (ne_of_gt hden)] at h2
    nlinarith
  simp only [calculate_sub_interval]
  rw [if_neg hne]

/-- Witness for C2 at a concrete input. -/
theorem c2_sub_interval_formulas_witness :
    (0:ℚ) < 1 ∧ 1 ≤ 1 ∧
      calculate_sub_interval 0 1 1 =
        .ok { left := (0:ℚ) + (1 - 0) / (2 * ((1:ℕ) : ℚ) + 1),
              right := (1:ℚ) - (1 - 0) / (2 * ((1:ℕ) : ℚ) + 1),
              increment := ((1:ℚ) - 0) / (2 * ((1:ℕ) : ℚ) + 1) } :=
  ⟨by norm_num, le_refl 1, c2_sub_interval_formulas 0 1 1 (by norm_num) (le_refl 1)⟩

/-- Claim C10: `get_descendants(include_self=False)` returns exactly the rows
`m` other than `n` with `m.tree_id = n.tree_id` and `n.left < m.left < n.right`
(the candidate `right` bound does not occur in the membership condition),
and `get_children` is that queryset further filtered by `level = n.level + 1`. -/
theorem c10_descendants_membership (db : Db) (n : NodeRec) :
    (∀ m : NodeRec, m ∈ get_descendants db n false ↔
      (m ∈ db ∧ m.pk ≠ n.pk ∧ m.tree_id = n.tree_id ∧ n.left < m.left ∧ m.left < n.right)) ∧
    get_children db n =
      (get_descendants db n false).filter (fun r => decide (r.level = n.level + 1)) := by
  constructor
  · intro m
    simp only [get_descendants, if_neg (by simp : ¬ (false = true)), tree_sorted,
      List.mem_insertionSort, List.mem_filter, decide_eq_true_eq, descendant_pred]
    tauto
  · rfl

/-- Claim C9: for a persisted target that is a root node, requesting a
left-sibling or right-sibling insertion interval fails with the
invalid-position condition (in the source a
`ValueError("Cannot insert as a sibling of a root node.")`, the
`InvalidPosition` entry of the spec error surface) and allocates nothing. -/
theorem c9_sibling_of_root (db : Db) (t : NodeObj) (position : Position) (count : ℕ)
    (hsaved : t.saved = true) (hroot : t.row.level = 0)
    (hpos : position = .left ∨ position = .right) :
    get_interval_for_insertion_relative_to db (some t) position count =
      .error .invalidPosition := by
  simp only [get_interval_for_insertion_relative_to, hsaved, Bool.not_true, is_root_node, hroot]
  rw [if_neg (by simp), if_pos (by simpa using hpos)]

/-- Witness for C9 at a concrete root target. -/
theorem c9_sibling_of_root_witness :
    (asObj { pk := 1, left := 0, right := 1, level := 0, tree_id := 7 }).saved = true ∧
      (asObj { pk := 1, left := 0, right := 1, level := 0, tree_id := 7 }).row.level = 0 ∧
      get_interval_for_insertion_relative_to []
        (some (asObj { pk := 1, left := 0, right := 1, level := 0, tree_id := 7 }))
        .left 1 = .error .invalidPosition :=
  ⟨rfl, rfl,
    c9_sibling_of_root [] (asObj { pk := 1, left := 0, right := 1, level := 0, tree_id := 7 })
      .left 1 rfl rfl (Or.inl rfl)⟩

/-- Claim C1 as amended: for a tree whose root lookup succeeds, the depth-first
relayout performed by `rebalance_tree` starts at `left = 0` and uses
`increment = range_width / (2 * node_count - 1)` — the root-level allocation
returns `increment = 1/(2*count - 1)` over the whole-tree range `[0, 1]`
(`range_width = 1`), with `count` the number of persisted nodes of the tree
including the root — not `range_width / (2 * node_count + 1)` as claimed. -/
theorem c1_rebalance_increment (fuel : ℕ) (db : Db) (tid : ℕ) (root : NodeRec)
    (hroot : root_node db tid = some root) :
    rebalance_tree fuel db tid =
      (rebalance_helper fuel db root 0
        (1 / (2 * ((get_descendants db root true).length : ℚ) - 1))).map Prod.fst := by
  simp only [rebalance_tree, hroot, get_interval_for_insertion_relative_to]

/-- Witness for C1 on a one-node tree with non-canonical bounds. -/
theorem c1_rebalance_increment_witness :
    root_node [({ pk := 1, left := 7/10, right := 4/5, level := 0, tree_id := 0 } : NodeRec)] 0 =
      some { pk := 1, left := 7/10, right := 4/5, level := 0, tree_id := 0 } ∧
    rebalance_tree 2 [{ pk := 1, left := 7/10, right := 4/5, level := 0, tree_id := 0 }] 0 =
      (rebalance_helper 2 [{ pk := 1, left := 7/10, right := 4/5, level := 0, tree_id := 0 }]
        { pk := 1, left := 7/10, right := 4/5, level := 0, tree_id := 0 } 0
        (1 / (2 * (((get_descendants
            [{ pk := 1, left := 7/10, right := 4/5, level := 0, tree_id := 0 }]
            { pk := 1, left := 7/10, right := 4/5, level := 0, tree_id := 0 } true).length : ℕ) : ℚ)
          - 1))).map Prod.fst :=
  ⟨by norm_num [root_node, List.filter],
    c1_rebalance_increment 2 _ 0 _ (by norm_num [root_node, List.filter])⟩

/-- Counterexample to claim C1 as stated: on a tree of `node_count = 1`
persisted node, the relayout uses increment `1 = 1/(2*1 - 1)` — the rebalanced
root ends at `(0, 1)` — while a relayout with the claimed increment
`range_width / (2 * node_count + 1) = 1/3` would end at `(0, 1/3)`. -/
theorem c1_rebalance_increment_counterexample :
    rebalance_tree 2 [({ pk := 1, left := 7/10, right := 4/5, level := 0, tree_id := 0 } : NodeRec)] 0 =
      some [{ pk := 1, left := 0, right := 1, level := 0, tree_id := 0 }] ∧
    (rebalance_helper 2 [({ pk := 1, left := 7/10, right := 4/5, level := 0, tree_id := 0 } : NodeRec)]
        { pk := 1, left := 7/10, right := 4/5, level := 0, tree_id := 0 } 0
        (1 / (2 * 1 + 1))).map Prod.fst =
      some [{ pk := 1, left := 0, right := 1/3, level := 0, tree_id := 0 }] ∧
    ({ pk := 1, left := 0, right := 1, level := 0, tree_id := 0 } : NodeRec) ≠
      { pk := 1, left := 0, right := 1/3, level := 0, tree_id := 0 } := by
  refine ⟨?_, ?_, by simp⟩ <;>
    norm_num [rebalance_tree, root_node, get_descendants, tree_sorted, get_children,
      get_interval_for_insertion_relative_to, rebalance_helper, rebalance_children,
      update_bounds, List.insertionSort, List.orderedInsert, List.filter, tree_order,
      descendant_pred]

/-- Claim C7 fails on the code: on the five-node tree
`R(0,1) ⊃ { A(0.01,0.02) ⊃ A1(0.012,0.018), B(0.1,0.9) ⊃ B1(0.4,0.5) }`
(which satisfies all nesting invariants), `rebalance_tree` revisits `A1`
while laying out `B` — the children query runs against already-updated rows —
and leaves `A1` at `(2/3, 7/9)`, outside its parent `A` new range
`(1/9, 4/9)`: the ancestor relationship `A ⊐ A1` held before the rebalance and
no longer holds after it, and strict nesting is violated. -/
theorem c7_rebalance_corrupts_ancestry :
    is_ancestor_of { pk := 2, left := 1/100, right := 1/50, level := 1, tree_id := 0 }
      { pk := 3, left := 3/250, right := 9/500, level := 2, tree_id := 0 } = true ∧
    rebalance_tree 9
      [{ pk := 1, left := 0, right := 1, level := 0, tree_id := 0 },
       { pk := 2, left := 1/100, right := 1/50, level := 1, tree_id := 0 },
       { pk := 3, left := 3/250, right := 9/500, level := 2, tree_id := 0 },
       { pk := 4, left := 1/10, right := 9/10, level := 1, tree_id := 0 },
       { pk := 5, left := 2/5, right := 1/2, level := 2, tree_id := 0 }] 0 =
      some [{ pk := 1, left := 0, right := 11/9, level := 0, tree_id := 0 },
            { pk := 2, left := 1/9, right := 4/9, level := 1, tree_id := 0 },
            { pk := 3, left := 2/3, right := 7/9, level := 2, tree_id := 0 },
            { pk := 4, left := 5/9, right := 10/9, level := 1, tree_id := 0 },
            { pk := 5, left := 8/9, right := 1, level := 2, tree_id := 0 }] ∧
    is_ancestor_of { pk := 2, left := 1/9, right := 4/9, level := 1, tree_id := 0 }
      { pk := 3, left := 2/3, right := 7/9, level := 2, tree_id := 0 } = false := by
  refine ⟨by norm_num [is_ancestor_of, is_descendant_of], ?_,
    by norm_num [is_ancestor_of, is_descendant_of]⟩
  norm_num [rebalance_tree, root_node, get_descendants, tree_sorted,
    get_children, get_interval_for_insertion_relative_to, rebalance_helper, rebalance_children,
    update_bounds, List.insertionSort, List.orderedInsert, List.filter, tree_order,
    descendant_pred]

theorem calculate_sub_interval_error_eq (ol orr : ℚ) (c : ℕ) (e : TreeError)
    (h : calculate_sub_interval ol orr c = .error e) : e = .intervalTooSmall := by
  simp only [calculate_sub_interval] at h
  split at h <;> simp_all

theorem get_previous_sibling_error_eq (db : Db) (o : NodeObj) (e : TreeError)
    (h : get_previous_sibling db o = .error e) : e = .attributeError := by
  unfold get_previous_sibling at h
  split at h
  · simp_all
  · split at h <;> simp_all

theorem get_next_sibling_error_eq (db : Db) (o : NodeObj) (e : TreeError)
    (h : get_next_sibling db o = .error e) : e = .attributeError := by
  unfold get_next_sibling at h
  split at h
  · simp_all
  · split at h <;> simp_all

theorem get_interval_errors (db : Db) (target : Option NodeObj) (position : Position)
    (count : ℕ) (e : TreeError)
    (h : get_interval_for_insertion_relative_to db target position count = .error e) :
    e = .intervalTooSmall ∨ e = .unsavedReference ∨ e = .invalidPosition ∨ e = .attributeError := by
  rcases target with _ | t
  · simp [get_interval_for_insertion_relative_to] at h
  · simp only [get_interval_for_insertion_relative_to] at h
    by_cases hs : ¬ (t.saved = true)
    · rw [if_pos hs] at h
      simp at h; tauto
    · rw [if_neg hs] at h
      by_cases hr : (position = Position.left ∨ position = Position.right) ∧ is_root_node t = true
      · rw [if_pos hr] at h
        simp at h; tauto
      · rw [if_neg hr] at h
        cases position <;> dsimp only at h
        · rcases hfc : (get_children db t.row).head? with _ | fc <;> simp only [hfc] at h <;>
            exact Or.inl (calculate_sub_interval_error_eq _ _ _ _ h)
        · rcases hlc : (get_children db t.row).getLast? with _ | lc <;> simp only [hlc] at h <;>
            exact Or.inl (calculate_sub_interval_error_eq _ _ _ _ h)
        · rcases hps : get_previous_sibling db t with e2 | s
          · rw [hps] at h
            simp at h
            subst h
            exact Or.inr (Or.inr (Or.inr (get_previous_sibling_error_eq _ _ _ hps)))
          · rcases s with _ | prev
            · rw [hps] at h
              rcases hp : obj_parent db t with _ | p <;> simp only [hp] at h
              · simp at h; tauto
              · exact Or.inl (calculate_sub_interval_error_eq _ _ _ _ h)
            · rw [hps] at h
              exact Or.inl (calculate_sub_interval_error_eq _ _ _ _ h)
        · rcases hps : get_next_sibling db t with e2 | s
          · rw [hps] at h
            simp at h
            subst h
            exact Or.inr (Or.inr (Or.inr (get_next_sibling_error_eq _ _ _ hps)))
          · rcases s with _ | nxt
            · rw [hps] at h
              rcases hp : obj_parent db t with _ | p <;> simp only [hp] at h
              · simp at h; tauto
              · exact Or.inl (calculate_sub_interval_error_eq _ _ _ _ h)
            · rw [hps] at h
              exact Or.inl (calculate_sub_interval_error_eq _ _ _ _ h)

theorem get_interval_with_rebalance_error_ne_invalid_move (fuel : ℕ) (db : Db)
    (target : Option NodeObj) (position : Position) (count : ℕ) (e : TreeError) (db2 : Db)
    (h : get_interval_with_rebalance fuel db target position count = .error (e, db2)) :
    e ≠ .invalidMove := by
  unfold get_interval_with_rebalance at h
  rcases h1 : get_interval_for_insertion_relative_to db target position count with e1 | i
  · rw [h1] at h
    have he1 := get_interval_errors db target position count e1 h1
    rcases e1 <;> simp only [] at h <;> try (simp at h; rcases h with ⟨h, h2⟩; subst h; simp_all)
    -- remaining: the intervalTooSmall retry branch
    rcases target with _ | t
    · simp at h; rcases h with ⟨h, h2⟩; subst h; simp
    · dsimp only at h
      rcases h2 : rebalance_tree fuel db t.row.tree_id with _ | db3 <;> simp only [h2] at h
      · simp at h; rcases h with ⟨h, h4⟩; subst h; simp
      · rcases h3 : refresh_from_db db3 t with _ | t2 <;> simp only [h3] at h
        · simp at h; rcases h with ⟨h, h4⟩; subst h; simp
        · rcases h4 : get_interval_for_insertion_relative_to db3 (some t2) position 1 with e2 | i2 <;>
            simp only [h4] at h
          · simp at h
            rcases h with ⟨h, h5⟩
            subst h
            have := get_interval_errors db3 (some t2) position 1 e2 h4
            rcases this with h | h | h | h <;> simp [h]
          · simp at h
  · rw [h1] at h; simp at h

theorem is_ancestor_of_iff (n t : NodeRec) :
    is_ancestor_of n t = true ↔
      t.tree_id = n.tree_id ∧ n.left < t.left ∧ t.right < n.right := by
  unfold is_ancestor_of is_descendant_of
  by_cases h : t.tree_id ≠ n.tree_id
  · rw [if_pos h]
    simp
    tauto
  · rw [if_neg h]
    push_neg at h
    simp [h, gt_iff_lt]

theorem _move_node_legality_error (fuel : ℕ) (db : Db) (node : NodeObj) (target : Option NodeObj)
    (position : Position) (fresh_tree : ℕ) (e : TreeError)
    (h : move_legality node target = .error e) :
    _move_node fuel db node target position fresh_tree = .error (e, db) := by
  unfold _move_node
  cases position <;> simp [h]

theorem _move_node_no_invalid_move_of_legal (fuel : ℕ) (db : Db) (node : NodeObj)
    (target : Option NodeObj) (position : Position) (fresh_tree : ℕ)
    (h : move_legality node target = .ok ()) (db2 : Db) :
    _move_node fuel db node target position fresh_tree ≠ .error (.invalidMove, db2) := by
  intro hc
  unfold _move_node at hc
  cases position <;> rw [h] at hc <;> simp only [] at hc <;>
  · by_cases hs : ¬ (node.saved = true)
    · rw [if_pos hs] at hc
      simp at hc
    · rw [if_neg hs] at hc
      split at hc
      · rename_i e1 db3 heq
        simp at hc
        exact get_interval_with_rebalance_error_ne_invalid_move _ _ _ _ _ _ _ heq hc.1
      · rename_i db3 i heq
        simp at hc

theorem move_legality_invalid_iff (node : NodeObj) (target : Option NodeObj)
    (hn : node.saved = true) (ht : ∀ t, target = some t → t.saved = true) :
    (move_legality node target = .error .invalidMove) ↔
      (∃ t, target = some t ∧ (node.row.pk = t.row.pk ∨
        (t.row.tree_id = node.row.tree_id ∧ node.row.left < t.row.left ∧
          t.row.right < node.row.right))) := by
  rcases target with _ | t
  · simp [move_legality]
  · have hts : t.saved = true := ht t rfl
    simp only [move_legality, node_eq, hn, hts, Bool.true_and]
    by_cases hpk : node.row.pk = t.row.pk
    · simp [hpk]
    · rw [if_neg (by simpa using hpk)]
      simp only [is_ancestor_of_checked, hn, hts]
      by_cases hanc : is_ancestor_of node.row t.row = true
      · rw [hanc]
        simp [hpk]
        exact (is_ancestor_of_iff _ _).mp hanc
      · rw [Bool.not_eq_true] at hanc
        rw [hanc]
        simp [hpk]
        intro h1 h2
        by_contra h3
        rw [not_le] at h3
        have := (is_ancestor_of_iff node.row t.row).mpr ⟨h1, h2, h3⟩
        rw [hanc] at this
        exact Bool.false_ne_true this

theorem c5_invalid_move_iff (fuel : ℕ) (db : Db) (node : NodeObj) (target : Option NodeObj)
    (position : Position) (fresh_tree : ℕ)
    (hn : node.saved = true) (ht : ∀ t, target = some t → t.saved = true) :
    ((∃ db2, _move_node fuel db node target position fresh_tree =
        .error (.invalidMove, db2)) ↔
      (∃ t, target = some t ∧ (node.row.pk = t.row.pk ∨
        (t.row.tree_id = node.row.tree_id ∧ node.row.left < t.row.left ∧
          t.row.right < node.row.right)))) ∧
    (∀ db2, _move_node fuel db node target position fresh_tree = .error (.invalidMove, db2) →
      db2 = db) := by
  have hlegiff := move_legality_invalid_iff node target hn ht
  constructor
  · constructor
    · rintro ⟨db2, hmv⟩
      rcases hl : move_legality node target with e1 | u
      · have heq := _move_node_legality_error fuel db node target position fresh_tree e1 hl
        rw [heq] at hmv
        simp at hmv
        rw [hmv.1] at hl
        exact hlegiff.mp hl
      · cases u
        exact absurd hmv
          (_move_node_no_invalid_move_of_legal fuel db node target position fresh_tree hl db2)
    · intro hr
      have hl := hlegiff.mpr hr
      exact ⟨db, _move_node_legality_error fuel db node target position fresh_tree _ hl⟩
  · intro db2 hmv
    rcases hl : move_legality node target with e1 | u
    · have heq := _move_node_legality_error fuel db node target position fresh_tree e1 hl
      rw [heq] at hmv
      simp at hmv
      exact hmv.2.symm
    · cases u
      exact absurd hmv
        (_move_node_no_invalid_move_of_legal fuel db node target position fresh_tree hl db2)

theorem descendant_count_zero (db : Db) (n : NodeRec) (h : get_descendant_count db n = 0) :
    ∀ r ∈ db, ¬ descendant_pred n r := by
  intro r hr hp
  have hmem : r ∈ get_descendants db n false := by
    simp only [get_descendants, if_neg (by simp : ¬ (false = true)), tree_sorted,
      List.mem_insertionSort, List.mem_filter, decide_eq_true_eq]
    exact ⟨hr, hp⟩
  unfold get_descendant_count at h
  rw [List.length_eq_zero] at h
  rw [h] at hmem
  simp at hmem

theorem c4_move_affine_transform (fuel : ℕ) (db : Db) (node : NodeObj) (target : Option NodeObj)
    (position : Position) (fresh_tree : ℕ) (interval : SubInterval)
    (hleg : move_legality node target = .ok ())
    (hsaved : node.saved = true)
    (halloc : get_interval_for_insertion_relative_to db target position
      (get_descendant_count db node.row + 1) = .ok interval)
    (hold : node.row.left < node.row.right)
    (hnew : interval.left < interval.right) :
    ∃ db3 node2,
      _move_node fuel db node target position fresh_tree = .ok (db3, node2) ∧
      node2.row.left = range_conversion node.row.left node.row.right
        interval.left interval.right node.row.left ∧
      node2.row.right = range_conversion node.row.left node.row.right
        interval.left interval.right node.row.right ∧
      List.Forall₂ (fun r r2 =>
        (descendant_pred node.row r →
          r2.left = range_conversion node.row.left node.row.right
            interval.left interval.right r.left ∧
          r2.right = range_conversion node.row.left node.row.right
            interval.left interval.right r.right ∧
          r2.pk = r.pk) ∧
        (¬ descendant_pred node.row r → r2 = r)) db db3 ∧
      (∀ x y : ℚ, x < y ↔
        range_conversion node.row.left node.row.right interval.left interval.right x <
        range_conversion node.row.left node.row.right interval.left interval.right y) := by
  have hos : (0:ℚ) < node.row.right - node.row.left := sub_pos.mpr hold
  have hns : (0:ℚ) < interval.right - interval.left := sub_pos.mpr hnew
  have hk : (0:ℚ) < (interval.right - interval.left) / (node.row.right - node.row.left) :=
    div_pos hns hos
  have hsm : StrictMono (range_conversion node.row.left node.row.right
      interval.left interval.right) := by
    intro x y hxy
    unfold range_conversion
    rw [mul_div_assoc, mul_div_assoc]
    have := mul_lt_mul_of_pos_right (sub_lt_sub_right hxy node.row.left) hk
    linarith
  have hconvl : range_conversion node.row.left node.row.right interval.left interval.right
      node.row.left = interval.left := by
    unfold range_conversion
    simp
  have hconvr : range_conversion node.row.left node.row.right interval.left interval.right
      node.row.right = interval.right := by
    unfold range_conversion
    rw [mul_comm, mul_div_assoc, div_self (ne_of_gt hos), mul_one]
    ring
  unfold _move_node
  cases position <;> rw [hleg] <;> dsimp only <;> rw [if_neg (by simp [hsaved])] <;>
    simp only [get_interval_with_rebalance, halloc] <;>
  · refine ⟨_, _, rfl, by simp [hconvl], by simp [hconvr], ?_, fun x y => (hsm.lt_iff_lt).symm⟩
    by_cases hdc : get_descendant_count db node.row ≠ 0
    · rw [if_pos hdc]
      rw [List.forall₂_map_right_iff, List.forall₂_same]
      intro r hr
      constructor
      · intro hp
        rw [if_pos (by simpa using hp)]
        exact ⟨rfl, rfl, rfl⟩
      · intro hp
        rw [if_neg (by simpa using hp)]
    · rw [if_neg hdc]
      rw [List.forall₂_same]
      intro r hr
      rw [not_not] at hdc
      exact ⟨fun hp => absurd hp (descendant_count_zero db node.row hdc r hr), fun _ => rfl⟩

theorem c6_rebalance_retry (fuel : ℕ) (db : Db) (t : NodeObj) (position : Position) (count : ℕ)
    (db2 : Db) (t2 : NodeObj)
    (hfail : get_interval_for_insertion_relative_to db (some t) position count =
      .error .intervalTooSmall)
    (hreb : rebalance_tree fuel db t.row.tree_id = some db2)
    (href : refresh_from_db db2 t = some t2) :
    (∀ i, get_interval_with_rebalance fuel db (some t) position count = .ok (db2, i) ↔
      get_interval_for_insertion_relative_to db2 (some t2) position 1 = .ok i) ∧
    (∀ e, get_interval_for_insertion_relative_to db2 (some t2) position 1 = .error e →
      get_interval_with_rebalance fuel db (some t) position count = .error (e, db2)) := by
  unfold get_interval_with_rebalance
  rw [hfail]
  dsimp only
  simp only [hreb, href]
  constructor
  · intro i
    rcases hr : get_interval_for_insertion_relative_to db2 (some t2) position 1 with e | i2 <;>
      simp [hr, eq_comm]
  · intro e he
    simp [he]

theorem c8_failed_save_keeps_intent (fuel : ℕ) (db : Db) (o : NodeObj) (t : NodeRec)
    (fresh_tree fresh_pk : ℕ)
    (hsaved : o.saved = true)
    (hcond : o.row.pk = t.pk ∨
      (t.tree_id = o.row.tree_id ∧ o.row.left < t.left ∧ t.right < o.row.right)) :
    node_save fuel db (set_parent o (some t)) fresh_tree fresh_pk false =
      .error (.invalidMove, db) ∧
    obj_parent db (set_parent o (some t)) = some t := by
  have hleg : move_legality (set_parent o (some t)) (some (asObj t)) = .error .invalidMove := by
    refine (move_legality_invalid_iff (set_parent o (some t)) (some (asObj t)) hsaved ?_).mpr
      ⟨asObj t, rfl, hcond⟩
    intro t2 h2
    rw [Option.some.injEq] at h2
    rw [← h2]
    rfl
  have hmv := _move_node_legality_error fuel db (set_parent o (some t)) (some (asObj t))
    Position.lastChild fresh_tree _ hleg
  constructor
  · unfold node_save
    rw [if_neg (by simp : ¬ (false = true))]
    rw [if_neg (by simp [set_parent, hsaved])]
    dsimp only [set_parent]
    have hmv2 : _move_node fuel db
        { row := o.row, saved := o.saved, newParent := NewParent.set (some t), dirty := true }
        (Option.map asObj (some t)) Position.lastChild fresh_tree =
        Except.error (TreeError.invalidMove, db) := hmv
    rw [hmv2]
  · rfl

theorem c5_invalid_move_iff_witness :
    (asObj { pk := 1, left := 0, right := 1, level := 0, tree_id := 0 }).saved = true ∧
    (∀ t, some (asObj { pk := 2, left := 1/3, right := 2/3, level := 1, tree_id := 0 }) = some t →
      t.saved = true) ∧
    (((∃ db2, _move_node 1
        [{ pk := 1, left := 0, right := 1, level := 0, tree_id := 0 },
         { pk := 2, left := 1/3, right := 2/3, level := 1, tree_id := 0 }]
        (asObj { pk := 1, left := 0, right := 1, level := 0, tree_id := 0 })
        (some (asObj { pk := 2, left := 1/3, right := 2/3, level := 1, tree_id := 0 }))
        .lastChild 9 = .error (.invalidMove, db2)) ↔
      (∃ t, some (asObj { pk := 2, left := 1/3, right := 2/3, level := 1, tree_id := 0 }) = some t ∧
        ((asObj { pk := 1, left := 0, right := 1, level := 0, tree_id := 0 }).row.pk = t.row.pk ∨
          (t.row.tree_id =
              (asObj { pk := 1, left := 0, right := 1, level := 0, tree_id := 0 }).row.tree_id ∧
            (asObj { pk := 1, left := 0, right := 1, level := 0, tree_id := 0 }).row.left <
              t.row.left ∧
            t.row.right <
              (asObj { pk := 1, left := 0, right := 1, level := 0, tree_id := 0 }).row.right)))) ∧
    (∀ db2, _move_node 1
        [{ pk := 1, left := 0, right := 1, level := 0, tree_id := 0 },
         { pk := 2, left := 1/3, right := 2/3, level := 1, tree_id := 0 }]
        (asObj { pk := 1, left := 0, right := 1, level := 0, tree_id := 0 })
        (some (asObj { pk := 2, left := 1/3, right := 2/3, level := 1, tree_id := 0 }))
        .lastChild 9 = .error (.invalidMove, db2) →
      db2 = [{ pk := 1, left := 0, right := 1, level := 0, tree_id := 0 },
             { pk := 2, left := 1/3, right := 2/3, level := 1, tree_id := 0 }])) :=
  ⟨rfl, by rintro t h; rw [Option.some.injEq] at h; rw [← h]; rfl,
    c5_invalid_move_iff 1 _ _ _ .lastChild 9 rfl
      (by rintro t h; rw [Option.some.injEq] at h; rw [← h]; rfl)⟩

theorem c8_failed_save_keeps_intent_witness :
    (asObj { pk := 1, left := 0, right := 1, level := 0, tree_id := 0 }).saved = true ∧
    ((asObj { pk := 1, left := 0, right := 1, level := 0, tree_id := 0 }).row.pk =
        ({ pk := 2, left := 1/3, right := 2/3, level := 1, tree_id := 0 } : NodeRec).pk ∨
      (({ pk := 2, left := 1/3, right := 2/3, level := 1, tree_id := 0 } : NodeRec).tree_id =
          (asObj { pk := 1, left := 0, right := 1, level := 0, tree_id := 0 }).row.tree_id ∧
        (asObj { pk := 1, left := 0, right := 1, level := 0, tree_id := 0 }).row.left <
          ({ pk := 2, left := 1/3, right := 2/3, level := 1, tree_id := 0 } : NodeRec).left ∧
        ({ pk := 2, left := 1/3, right := 2/3, level := 1, tree_id := 0 } : NodeRec).right <
          (asObj { pk := 1, left := 0, right := 1, level := 0, tree_id := 0 }).row.right)) ∧
    (node_save 1
        [{ pk := 1, left := 0, right := 1, level := 0, tree_id := 0 },
         { pk := 2, left := 1/3, right := 2/3, level := 1, tree_id := 0 }]
        (set_parent (asObj { pk := 1, left := 0, right := 1, level := 0, tree_id := 0 })
          (some { pk := 2, left := 1/3, right := 2/3, level := 1, tree_id := 0 })) 9 7 false =
      .error (.invalidMove,
        [{ pk := 1, left := 0, right := 1, level := 0, tree_id := 0 },
         { pk := 2, left := 1/3, right := 2/3, level := 1, tree_id := 0 }]) ∧
    obj_parent
        [{ pk := 1, left := 0, right := 1, level := 0, tree_id := 0 },
         { pk := 2, left := 1/3, right := 2/3, level := 1, tree_id := 0 }]
        (set_parent (asObj { pk := 1, left := 0, right := 1, level := 0, tree_id := 0 })
          (some { pk := 2, left := 1/3, right := 2/3, level := 1, tree_id := 0 })) =
      some { pk := 2, left := 1/3, right := 2/3, level := 1, tree_id := 0 }) :=
  ⟨rfl, Or.inr ⟨rfl, by norm_num [asObj], by norm_num [asObj]⟩,
    c8_failed_save_keeps_intent 1 _ _ _ 9 7 rfl (Or.inr ⟨rfl, by norm_num [asObj], by norm_num [asObj]⟩)⟩

theorem c4_move_affine_transform_witness :
    move_legality (asObj { pk := 2, left := 1/4, right := 1/2, level := 1, tree_id := 0 })
      (some (asObj { pk := 1, left := 0, right := 1, level := 0, tree_id := 0 })) = .ok () ∧
    (asObj { pk := 2, left := 1/4, right := 1/2, level := 1, tree_id := 0 }).saved = true ∧
    get_interval_for_insertion_relative_to
      [{ pk := 1, left := 0, right := 1, level := 0, tree_id := 0 },
       { pk := 2, left := 1/4, right := 1/2, level := 1, tree_id := 0 },
       { pk := 3, left := 3/10, right := 2/5, level := 2, tree_id := 0 }]
      (some (asObj { pk := 1, left := 0, right := 1, level := 0, tree_id := 0 })) .lastChild
      (get_descendant_count
        [{ pk := 1, left := 0, right := 1, level := 0, tree_id := 0 },
         { pk := 2, left := 1/4, right := 1/2, level := 1, tree_id := 0 },
         { pk := 3, left := 3/10, right := 2/5, level := 2, tree_id := 0 }]
        (asObj { pk := 2, left := 1/4, right := 1/2, level := 1, tree_id := 0 }).row + 1) =
      .ok { left := 3/5, right := 9/10, increment := 1/10 } ∧
    (asObj { pk := 2, left := 1/4, right := 1/2, level := 1, tree_id := 0 }).row.left <
      (asObj { pk := 2, left := 1/4, right := 1/2, level := 1, tree_id := 0 }).row.right ∧
    ({ left := 3/5, right := 9/10, increment := 1/10 } : SubInterval).left <
      ({ left := 3/5, right := 9/10, increment := 1/10 } : SubInterval).right ∧
    (∃ db3 node2,
      _move_node 1
        [{ pk := 1, left := 0, right := 1, level := 0, tree_id := 0 },
         { pk := 2, left := 1/4, right := 1/2, level := 1, tree_id := 0 },
         { pk := 3, left := 3/10, right := 2/5, level := 2, tree_id := 0 }]
        (asObj { pk := 2, left := 1/4, right := 1/2, level := 1, tree_id := 0 })
        (some (asObj { pk := 1, left := 0, right := 1, level := 0, tree_id := 0 }))
        .lastChild 9 = .ok (db3, node2) ∧
      node2.row.left = range_conversion (1/4) (1/2) (3/5) (9/10) (1/4) ∧
      node2.row.right = range_conversion (1/4) (1/2) (3/5) (9/10) (1/2) ∧
      List.Forall₂ (fun r r2 =>
        (descendant_pred { pk := 2, left := 1/4, right := 1/2, level := 1, tree_id := 0 } r →
          r2.left = range_conversion (1/4) (1/2) (3/5) (9/10) r.left ∧
          r2.right = range_conversion (1/4) (1/2) (3/5) (9/10) r.right ∧
          r2.pk = r.pk) ∧
        (¬ descendant_pred { pk := 2, left := 1/4, right := 1/2, level := 1, tree_id := 0 } r →
          r2 = r))
        [{ pk := 1, left := 0, right := 1, level := 0, tree_id := 0 },
         { pk := 2, left := 1/4, right := 1/2, level := 1, tree_id := 0 },
         { pk := 3, left := 3/10, right := 2/5, level := 2, tree_id := 0 }] db3 ∧
      (∀ x y : ℚ, x < y ↔
        range_conversion (1/4) (1/2) (3/5) (9/10) x <
        range_conversion (1/4) (1/2) (3/5) (9/10) y)) := by
  have hleg : move_legality (asObj { pk := 2, left := 1/4, right := 1/2, level := 1, tree_id := 0 })
      (some (asObj { pk := 1, left := 0, right := 1, level := 0, tree_id := 0 })) = .ok () := by
    norm_num [move_legality, node_eq, is_ancestor_of_checked, is_ancestor_of, is_descendant_of,
      asObj]
  have halloc : get_interval_for_insertion_relative_to
      [{ pk := 1, left := 0, right := 1, level := 0, tree_id := 0 },
       { pk := 2, left := 1/4, right := 1/2, level := 1, tree_id := 0 },
       { pk := 3, left := 3/10, right := 2/5, level := 2, tree_id := 0 }]
      (some (asObj { pk := 1, left := 0, right := 1, level := 0, tree_id := 0 })) .lastChild
      (get_descendant_count
        [{ pk := 1, left := 0, right := 1, level := 0, tree_id := 0 },
         { pk := 2, left := 1/4, right := 1/2, level := 1, tree_id := 0 },
         { pk := 3, left := 3/10, right := 2/5, level := 2, tree_id := 0 }]
        (asObj { pk := 2, left := 1/4, right := 1/2, level := 1, tree_id := 0 }).row + 1) =
      .ok { left := 3/5, right := 9/10, increment := 1/10 } := by
    norm_num [get_interval_for_insertion_relative_to, get_descendant_count, get_descendants,
      descendant_pred, tree_sorted, get_children, asObj, is_root_node, calculate_sub_interval,
      List.insertionSort, List.orderedInsert, List.filter, tree_order, List.getLast?,
      List.getLast]
    rintro (h | h) <;> exact Position.noConfusion h
  have hold : (asObj { pk := 2, left := 1/4, right := 1/2, level := 1, tree_id := 0 }).row.left <
      (asObj { pk := 2, left := 1/4, right := 1/2, level := 1, tree_id := 0 }).row.right := by
    norm_num [asObj]
  have hnew : ({ left := 3/5, right := 9/10, increment := 1/10 } : SubInterval).left <
      ({ left := 3/5, right := 9/10, increment := 1/10 } : SubInterval).right := by
    norm_num
  exact ⟨hleg, rfl, halloc, hold, hnew,
    c4_move_affine_transform 1 _ (asObj { pk := 2, left := 1/4, right := 1/2, level := 1, tree_id := 0 })
      (some (asObj { pk := 1, left := 0, right := 1, level := 0, tree_id := 0 })) .lastChild 9
      { left := 3/5, right := 9/10, increment := 1/10 } hleg rfl halloc hold hnew⟩

theorem c6_rebalance_retry_witness :
    get_interval_for_insertion_relative_to
      [{ pk := 1, left := 0, right := 1, level := 0, tree_id := 0 },
       { pk := 2, left := 1/5, right := 1/5, level := 1, tree_id := 0 }]
      (some (asObj { pk := 2, left := 1/5, right := 1/5, level := 1, tree_id := 0 }))
      .firstChild 5 = .error .intervalTooSmall ∧
    rebalance_tree 3
      [{ pk := 1, left := 0, right := 1, level := 0, tree_id := 0 },
       { pk := 2, left := 1/5, right := 1/5, level := 1, tree_id := 0 }] 0 =
      some [{ pk := 1, left := 0, right := 1, level := 0, tree_id := 0 },
            { pk := 2, left := 1/3, right := 2/3, level := 1, tree_id := 0 }] ∧
    refresh_from_db
      [{ pk := 1, left := 0, right := 1, level := 0, tree_id := 0 },
       { pk := 2, left := 1/3, right := 2/3, level := 1, tree_id := 0 }]
      (asObj { pk := 2, left := 1/5, right := 1/5, level := 1, tree_id := 0 }) =
      some (asObj { pk := 2, left := 1/3, right := 2/3, level := 1, tree_id := 0 }) ∧
    ((∀ i, get_interval_with_rebalance 3
        [{ pk := 1, left := 0, right := 1, level := 0, tree_id := 0 },
         { pk := 2, left := 1/5, right := 1/5, level := 1, tree_id := 0 }]
        (some (asObj { pk := 2, left := 1/5, right := 1/5, level := 1, tree_id := 0 }))
        .firstChild 5 =
        .ok ([{ pk := 1, left := 0, right := 1, level := 0, tree_id := 0 },
              { pk := 2, left := 1/3, right := 2/3, level := 1, tree_id := 0 }], i) ↔
      get_interval_for_insertion_relative_to
        [{ pk := 1, left := 0, right := 1, level := 0, tree_id := 0 },
         { pk := 2, left := 1/3, right := 2/3, level := 1, tree_id := 0 }]
        (some (asObj { pk := 2, left := 1/3, right := 2/3, level := 1, tree_id := 0 }))
        .firstChild 1 = .ok i) ∧
     (∀ e, get_interval_for_insertion_relative_to
        [{ pk := 1, left := 0, right := 1, level := 0, tree_id := 0 },
         { pk := 2, left := 1/3, right := 2/3, level := 1, tree_id := 0 }]
        (some (asObj { pk := 2, left := 1/3, right := 2/3, level := 1, tree_id := 0 }))
        .firstChild 1 = .error e →
      get_interval_with_rebalance 3
        [{ pk := 1, left := 0, right := 1, level := 0, tree_id := 0 },
         { pk := 2, left := 1/5, right := 1/5, level := 1, tree_id := 0 }]
        (some (asObj { pk := 2, left := 1/5, right := 1/5, level := 1, tree_id := 0 }))
        .firstChild 5 =
        .error (e, [{ pk := 1, left := 0, right := 1, level := 0, tree_id := 0 },
                    { pk := 2, left := 1/3, right := 2/3, level := 1, tree_id := 0 }]))) := by
  have hfail : get_interval_for_insertion_relative_to
      [{ pk := 1, left := 0, right := 1, level := 0, tree_id := 0 },
       { pk := 2, left := 1/5, right := 1/5, level := 1, tree_id := 0 }]
      (some (asObj { pk := 2, left := 1/5, right := 1/5, level := 1, tree_id := 0 }))
      .firstChild 5 = .error .intervalTooSmall := by
    norm_num [get_interval_for_insertion_relative_to, get_descendants, descendant_pred,
      tree_sorted, get_children, asObj, is_root_node, calculate_sub_interval,
      List.insertionSort, List.orderedInsert, List.filter, tree_order]
  have hreb : rebalance_tree 3
      [{ pk := 1, left := 0, right := 1, level := 0, tree_id := 0 },
       { pk := 2, left := 1/5, right := 1/5, level := 1, tree_id := 0 }] 0 =
      some [{ pk := 1, left := 0, right := 1, level := 0, tree_id := 0 },
            { pk := 2, left := 1/3, right := 2/3, level := 1, tree_id := 0 }] := by
    norm_num [rebalance_tree, root_node, get_descendants, tree_sorted, get_children,
      get_interval_for_insertion_relative_to, rebalance_helper, rebalance_children,
      update_bounds, List.insertionSort, List.orderedInsert, List.filter, tree_order,
      descendant_pred]
  have href : refresh_from_db
      [{ pk := 1, left := 0, right := 1, level := 0, tree_id := 0 },
       { pk := 2, left := 1/3, right := 2/3, level := 1, tree_id := 0 }]
      (asObj { pk := 2, left := 1/5, right := 1/5, level := 1, tree_id := 0 }) =
      some (asObj { pk := 2, left := 1/3, right := 2/3, level := 1, tree_id := 0 }) := by
    norm_num [refresh_from_db, List.find?, asObj]
    rfl
  exact ⟨hfail, hreb, href, c6_rebalance_retry 3 _
    (asObj { pk := 2, left := 1/5, right := 1/5, level := 1, tree_id := 0 }) .firstChild 5 _
    (asObj { pk := 2, left := 1/3, right := 2/3, level := 1, tree_id := 0 }) hfail hreb href⟩

theorem roundHE_floor_le (x : ℚ) : ⌊x⌋ ≤ roundHE x := by
  unfold roundHE
  split_ifs <;> omega

theorem roundHE_le_floor_add (x : ℚ) : roundHE x ≤ ⌊x⌋ + 1 := by
  unfold roundHE
  split_ifs <;> omega

theorem roundHE_sub_le (x : ℚ) : |(roundHE x : ℚ) - x| ≤ 1/2 := by
  have hf1 := Int.fract_nonneg x
  have hf2 := Int.fract_lt_one x
  have hfe := Int.self_sub_floor x
  rw [abs_le]
  unfold roundHE
  split_ifs with h1 h2 h3 <;> push_cast <;> constructor <;> linarith

theorem roundHE_intCast (n : ℤ) : roundHE (n : ℚ) = n := by
  unfold roundHE
  rw [Int.fract_intCast, Int.floor_intCast]
  norm_num

theorem roundHE_mono {x y : ℚ} (h : x ≤ y) : roundHE x ≤ roundHE y := by
  rcases lt_or_eq_of_le (Int.floor_le_floor h) with hf | hf
  · calc roundHE x ≤ ⌊x⌋ + 1 := roundHE_le_floor_add x
    _ ≤ ⌊y⌋ := by omega
    _ ≤ roundHE y := roundHE_floor_le y
  · have hfr : Int.fract x ≤ Int.fract y := by
      have h1 := Int.self_sub_floor x
      have h2 := Int.self_sub_floor y
      rw [← h1, ← h2, hf]
      linarith
    unfold roundHE
    rw [← hf]
    split_ifs <;> first | omega | linarith

theorem roundHE_neg (x : ℚ) : roundHE (-x) = - roundHE x := by
  by_cases h0 : Int.fract x = 0
  · have hx : x = (⌊x⌋ : ℚ) := by
      have := Int.self_sub_floor x
      rw [h0] at this
      linarith
    rw [hx, ← Int.cast_neg, roundHE_intCast, roundHE_intCast]
  · have hf1 := Int.fract_nonneg x
    have hf2 := Int.fract_lt_one x
    have hf0 : 0 < Int.fract x := lt_of_le_of_ne hf1 (Ne.symm h0)
    have hfe := Int.self_sub_floor x
    have hfneg : Int.fract (-x) = 1 - Int.fract x := Int.fract_neg h0
    have hflneg : ⌊-x⌋ = -⌊x⌋ - 1 := by
      rw [Int.floor_eq_iff]
      push_cast
      constructor <;> linarith
    unfold roundHE
    rw [hfneg, hflneg]
    rcases lt_trichotomy (Int.fract x) (1/2) with hc | hc | hc
    · rw [if_neg (show ¬ (1 - Int.fract x < 1/2) by linarith),
        if_pos (show (1:ℚ)/2 < 1 - Int.fract x by linarith), if_pos hc]
      omega
    · rw [hc]
      norm_num
      rcases Int.even_or_odd ⌊x⌋ with he | he
      · have hne : ¬ Even (-⌊x⌋ - 1) := by
          rcases he with ⟨k, hk⟩
          rintro ⟨j, hj⟩
          omega
        rw [if_neg hne, if_pos he]
      · have hps : Even (-⌊x⌋ - 1) := by
          rcases he with ⟨k, hk⟩
          exact ⟨-k - 1, by omega⟩
        have hne : ¬ Even ⌊x⌋ := by
          rcases he with ⟨k, hk⟩
          rintro ⟨j, hj⟩
          omega
        rw [if_pos hps, if_neg hne]
        omega
    · rw [if_pos (show 1 - Int.fract x < 1/2 by linarith),
        if_neg (show ¬ (Int.fract x < 1/2) by linarith), if_pos hc]
      omega

theorem dround_zero (prec : ℕ) : dround prec 0 = 0 := by
  simp [dround]

theorem dround_neg (prec : ℕ) (x : ℚ) : dround prec (-x) = - dround prec x := by
  unfold dround
  by_cases hx : x = 0
  · simp [hx]
  · rw [if_neg (neg_ne_zero.mpr hx), if_neg hx, abs_neg, neg_div, roundHE_neg]
    push_cast
    ring

theorem dround_nonneg (prec : ℕ) (x : ℚ) (hx : 0 ≤ x) : 0 ≤ dround prec x := by
  unfold dround
  by_cases h0 : x = 0
  · simp [h0]
  · rw [if_neg h0]
    have hxp : 0 < x := lt_of_le_of_ne hx (Ne.symm h0)
    have hg : (0:ℚ) < (10:ℚ) ^ (Int.log 10 |x| + 1 - prec) := zpow_pos (by norm_num) _
    have hfl : (0:ℤ) ≤ ⌊x / (10:ℚ) ^ (Int.log 10 |x| + 1 - prec)⌋ :=
      Int.floor_nonneg.mpr (le_of_lt (div_pos hxp hg))
    have := roundHE_floor_le (x / (10:ℚ) ^ (Int.log 10 |x| + 1 - prec))
    have hr : (0:ℤ) ≤ roundHE (x / (10:ℚ) ^ (Int.log 10 |x| + 1 - prec)) := le_trans hfl this
    exact mul_nonneg (by exact_mod_cast hr) (le_of_lt hg)

theorem dround_err (prec : ℕ) (x : ℚ) :
    |dround prec x - x| ≤ |x| * (5 / 10 ^ prec) := by
  by_cases hx : x = 0
  · simp [hx, dround]
  · unfold dround
    rw [if_neg hx]
    set e := Int.log 10 |x| with he
    set g : ℚ := (10:ℚ) ^ (e + 1 - prec) with hg
    have hgpos : 0 < g := zpow_pos (by norm_num) _
    have h1 : |(roundHE (x/g) : ℚ) - x/g| ≤ 1/2 := roundHE_sub_le _
    have h2 : (roundHE (x/g) : ℚ) * g - x = ((roundHE (x/g) : ℚ) - x/g) * g := by
      field_simp
    rw [h2, abs_mul, abs_of_pos hgpos]
    have h3 : |(roundHE (x/g):ℚ) - x/g| * g ≤ (1/2) * g :=
      mul_le_mul_of_nonneg_right h1 (le_of_lt hgpos)
    refine le_trans h3 ?_
    have habs : 0 < |x| := abs_pos.mpr hx
    have h4 : (10:ℚ) ^ e ≤ |x| := by
      have := Int.zpow_log_le_self (b := 10) (R := ℚ) (by norm_num) habs
      rw [he]
      convert this using 2
    have h5 : g = (10:ℚ)^e * 10 / 10 ^ prec := by
      rw [hg, zpow_sub₀ (by norm_num : (10:ℚ) ≠ 0), zpow_add₀ (by norm_num : (10:ℚ) ≠ 0),
        zpow_one, zpow_natCast]
    rw [h5]
    have hp : (0:ℚ) < 10 ^ prec := by positivity
    rw [show (1:ℚ)/2 * ((10:ℚ)^e * 10 / 10^prec) = 5 * (10:ℚ)^e / 10^prec by ring,
      show |x| * (5/10^prec) = 5 * |x| / 10^prec by ring]
    rw [div_le_div_iff_of_pos_right hp]
    linarith

theorem dround_mono_pos (prec : ℕ) (hp : 1 ≤ prec) {x y : ℚ} (hx : 0 < x) (hxy : x ≤ y) :
    dround prec x ≤ dround prec y := by
  have hy : 0 < y := lt_of_lt_of_le hx hxy
  unfold dround
  rw [if_neg (ne_of_gt hx), if_neg (ne_of_gt hy), abs_of_pos hx, abs_of_pos hy]
  have hee : Int.log 10 x ≤ Int.log 10 y := Int.log_mono_right hx hxy
  rcases eq_or_lt_of_le hee with heq | hlt
  · rw [← heq]
    have hg : (0:ℚ) < (10:ℚ) ^ (Int.log 10 x + 1 - prec) := zpow_pos (by norm_num) _
    have hdiv : x / (10:ℚ) ^ (Int.log 10 x + 1 - prec) ≤
        y / (10:ℚ) ^ (Int.log 10 x + 1 - prec) :=
      (div_le_div_iff_of_pos_right hg).mpr hxy
    exact mul_le_mul_of_nonneg_right (by exact_mod_cast roundHE_mono hdiv) (le_of_lt hg)
  · set e1 := Int.log 10 x with he1
    set e2 := Int.log 10 y with he2
    set g1 : ℚ := (10:ℚ) ^ (e1 + 1 - prec) with hg1
    set g2 : ℚ := (10:ℚ) ^ (e2 + 1 - prec) with hg2
    have hg1p : 0 < g1 := zpow_pos (by norm_num) _
    have hg2p : 0 < g2 := zpow_pos (by norm_num) _
    have hupper : (roundHE (x/g1) : ℚ) * g1 ≤ (10:ℚ) ^ (e1 + 1) := by
      have hxlt : x < (10:ℚ) ^ (e1 + 1) := by
        have := Int.lt_zpow_succ_log_self (b := 10) (R := ℚ) (by norm_num) x
        rw [he1]
        convert this using 3
      have hdiv : x / g1 < ((10:ℚ) ^ (prec : ℤ)) := by
        rw [div_lt_iff₀ hg1p, hg1, ← zpow_add₀ (by norm_num : (10:ℚ) ≠ 0)]
        rw [show (prec:ℤ) + (e1 + 1 - prec) = e1 + 1 by ring]
        exact hxlt
      have hfl : ⌊x / g1⌋ < (10:ℤ) ^ prec := by
        rw [Int.floor_lt]
        rw [show (((10:ℤ) ^ prec : ℤ) : ℚ) = (10:ℚ) ^ (prec:ℤ) by push_cast; rw [zpow_natCast]]
        exact hdiv
      have hr : roundHE (x/g1) ≤ (10:ℤ) ^ prec := by
        have := roundHE_le_floor_add (x/g1)
        omega
      calc (roundHE (x/g1) : ℚ) * g1 ≤ (((10:ℤ)^prec : ℤ) : ℚ) * g1 :=
            mul_le_mul_of_nonneg_right (by exact_mod_cast hr) (le_of_lt hg1p)
        _ = (10:ℚ) ^ (e1 + 1) := by
            rw [show (((10:ℤ) ^ prec : ℤ) : ℚ) = (10:ℚ) ^ (prec:ℤ) by push_cast; rw [zpow_natCast],
              hg1, ← zpow_add₀ (by norm_num : (10:ℚ) ≠ 0)]
            congr 1
            ring
    have hcast : (((10:ℤ) ^ (prec - 1) : ℤ) : ℚ) = (10:ℚ) ^ ((prec:ℤ) - 1) := by
      rw [show ((prec:ℤ) - 1) = ((prec - 1 : ℕ) : ℤ) by omega]
      push_cast
      rw [zpow_natCast]
    have hlower : (10:ℚ) ^ e2 ≤ (roundHE (y/g2) : ℚ) * g2 := by
      have hyge : (10:ℚ) ^ e2 ≤ y := by
        have := Int.zpow_log_le_self (b := 10) (R := ℚ) (by norm_num) hy
        rw [he2]
        convert this using 2
      have hdiv : ((10:ℚ) ^ ((prec:ℤ) - 1)) ≤ y / g2 := by
        rw [le_div_iff₀ hg2p, hg2, ← zpow_add₀ (by norm_num : (10:ℚ) ≠ 0)]
        rw [show (prec:ℤ) - 1 + (e2 + 1 - prec) = e2 by ring]
        exact hyge
      have hfl : (10:ℤ) ^ (prec - 1) ≤ ⌊y / g2⌋ := by
        rw [Int.le_floor, hcast]
        exact hdiv
      have hr : (10:ℤ) ^ (prec - 1) ≤ roundHE (y/g2) := le_trans hfl (roundHE_floor_le _)
      calc (10:ℚ) ^ e2 = (((10:ℤ) ^ (prec - 1) : ℤ) : ℚ) * g2 := by
            rw [hcast, hg2, ← zpow_add₀ (by norm_num : (10:ℚ) ≠ 0)]
            congr 1
            ring
        _ ≤ _ := mul_le_mul_of_nonneg_right (by exact_mod_cast hr) (le_of_lt hg2p)
    have hmid : (10:ℚ) ^ (e1 + 1) ≤ (10:ℚ) ^ e2 :=
      zpow_le_zpow_right₀ (by norm_num) (by omega)
    linarith

theorem dround_mono (prec : ℕ) (hp : 1 ≤ prec) {x y : ℚ} (h : x ≤ y) :
    dround prec x ≤ dround prec y := by
  rcases lt_trichotomy x 0 with hx | hx | hx
  · rcases lt_trichotomy y 0 with hy | hy | hy
    · have hmono := dround_mono_pos prec hp (show (0:ℚ) < -y by linarith)
        (by linarith : -y ≤ -x)
      rw [dround_neg, dround_neg] at hmono
      linarith
    · rw [hy, dround_zero]
      have h1 := dround_nonneg prec (-x) (by linarith)
      rw [dround_neg] at h1
      linarith
    · have h1 := dround_nonneg prec (-x) (by linarith)
      rw [dround_neg] at h1
      have h2 := dround_nonneg prec y (le_of_lt hy)
      linarith
  · rw [hx, dround_zero]
    exact dround_nonneg prec y (by linarith)
  · exact dround_mono_pos prec hp hx h

theorem c3_key_ineq (w cq T D Q I e : ℚ)
    (hw : 0 < w) (hcq : 1 ≤ cq) (he0 : 0 < e) (he : e ≤ 1/20)
    (hT1 : 2*cq - 2*cq*e ≤ T)
    (hD1 : T + 1 - (T+1)*e ≤ D)
    (hW2 : Q * D ≤ w + w*e)
    (hQ0 : 0 ≤ Q)
    (hI2 : I ≤ Q + Q*e) :
    2 * I ≤ w := by
  have h1e : (0:ℚ) ≤ 1 - e := by linarith
  have hA : (0:ℚ) < 3*(1-e)^2 := by nlinarith
  have hTa : (2*cq - 2*cq*e) * (1-e) ≤ T * (1-e) := mul_le_mul_of_nonneg_right hT1 h1e
  have hDA : 3*(1-e)^2 ≤ D := by
    nlinarith [mul_nonneg (sub_nonneg.mpr hcq) he0.le, sq_nonneg e,
      mul_nonneg (mul_nonneg (sub_nonneg.mpr hcq) he0.le) he0.le]
  have h1 : Q * (3*(1-e)^2) ≤ Q * D := mul_le_mul_of_nonneg_left hDA hQ0
  have h2 : Q * (3*(1-e)^2) ≤ w + w*e := le_trans h1 hW2
  have h5 : 2*(Q*(1+e)) * (3*(1-e)^2) ≤ w * (3*(1-e)^2) := by
    nlinarith [mul_le_mul_of_nonneg_right h2 (show (0:ℚ) ≤ 2*(1+e) by linarith), sq_nonneg e,
      mul_pos hw he0, mul_nonneg (mul_nonneg hw.le he0.le) he0.le]
  have h6 : 2*(Q*(1+e)) ≤ w := le_of_mul_le_mul_right h5 hA
  nlinarith [h6, mul_nonneg hQ0 he0.le]

set_option maxHeartbeats 1000000 in
theorem c3_sub_interval_dec (prec : ℕ) (outerleft outerright : ℚ) (count : ℕ)
    (hprec : 2 ≤ prec) (hc : 1 ≤ count) (hlt : outerleft < outerright) :
    (∀ s, calculate_sub_interval_dec prec outerleft outerright count = .ok s →
      s.left < s.right) ∧
    (calculate_sub_interval_dec prec outerleft outerright count = .error .intervalTooSmall ↔
      dround prec (outerleft + sub_interval_increment_dec prec outerleft outerright count) =
      dround prec (outerright - sub_interval_increment_dec prec outerleft outerright count)) := by
  have hkey : 2 * sub_interval_increment_dec prec outerleft outerright count ≤
      outerright - outerleft := by
    simp only [sub_interval_increment_dec]
    set e : ℚ := 5 / 10 ^ prec with hedef
    set w := outerright - outerleft with hwdef
    have hw : 0 < w := sub_pos.mpr hlt
    have he0 : (0:ℚ) < e := by rw [hedef]; positivity
    have h100 : (100:ℚ) ≤ 10 ^ prec := by
      calc (100:ℚ) = 10 ^ 2 := by norm_num
      _ ≤ 10 ^ prec := pow_le_pow_right₀ (by norm_num) hprec
    have he : e ≤ 1/20 := by
      rw [hedef, div_le_div_iff₀ (by positivity) (by norm_num)]
      linarith
    have hcq : (1:ℚ) ≤ (count:ℚ) := by exact_mod_cast hc
    set T := dround prec (2 * (count:ℚ)) with hTdef
    have hTerr : |T - 2 * (count:ℚ)| ≤ 2 * (count:ℚ) * e := by
      have h := dround_err prec (2 * (count:ℚ))
      rw [← hedef] at h
      rwa [abs_of_pos (by linarith : (0:ℚ) < 2 * (count:ℚ))] at h
    rw [abs_le] at hTerr
    have hce : (count:ℚ) * e ≤ (count:ℚ) * (1/20) :=
      mul_le_mul_of_nonneg_left he (by linarith)
    have hTpos : 0 < T := by nlinarith [hTerr.1]
    set D := dround prec (T + 1) with hDdef
    have hDerr : |D - (T + 1)| ≤ (T + 1) * e := by
      have h := dround_err prec (T + 1)
      rw [← hedef] at h
      rwa [abs_of_pos (by linarith : (0:ℚ) < T + 1)] at h
    rw [abs_le] at hDerr
    have hTe : (T + 1) * e ≤ (T + 1) * (1/20) :=
      mul_le_mul_of_nonneg_left he (by linarith)
    have hDpos : 0 < D := by nlinarith [hDerr.1]
    set W := dround prec w with hWdef
    have hWerr : |W - w| ≤ w * e := by
      have h := dround_err prec w
      rw [← hedef] at h
      rwa [abs_of_pos hw] at h
    rw [abs_le] at hWerr
    have hWpos : 0 < W := by nlinarith [hWerr.1, mul_le_mul_of_nonneg_left he hw.le]
    have hQ0 : (0:ℚ) ≤ W / D := le_of_lt (div_pos hWpos hDpos)
    have hIerr : |dround prec (W / D) - W / D| ≤ W / D * e := by
      have h := dround_err prec (W / D)
      rw [← hedef] at h
      rwa [abs_of_nonneg hQ0] at h
    rw [abs_le] at hIerr
    have hQD : W / D * D = W := div_mul_cancel₀ W (ne_of_gt hDpos)
    refine c3_key_ineq w (count:ℚ) T D (W / D) (dround prec (W / D)) e hw hcq he0 he
      (by linarith [hTerr.1]) (by linarith [hDerr.1]) ?_ hQ0 (by linarith [hIerr.2])
    rw [hQD]
    linarith [hWerr.2]
  have hLR : outerleft + sub_interval_increment_dec prec outerleft outerright count ≤
      outerright - sub_interval_increment_dec prec outerleft outerright count := by linarith
  have hlr := dround_mono prec (by omega) hLR
  constructor
  · intro s hs
    simp only [calculate_sub_interval_dec] at hs
    by_cases heq :
        dround prec (outerleft + sub_interval_increment_dec prec outerleft outerright count) =
        dround prec (outerright - sub_interval_increment_dec prec outerleft outerright count)
    · rw [if_pos heq] at hs
      simp at hs
    · rw [if_neg heq] at hs
      rw [Except.ok.injEq] at hs
      rw [← hs]
      exact lt_of_le_of_ne hlr heq
  · simp only [calculate_sub_interval_dec]
    by_cases heq :
        dround prec (outerleft + sub_interval_increment_dec prec outerleft outerright count) =
        dround prec (outerright - sub_interval_increment_dec prec outerleft outerright count)
    · rw [if_pos heq]
      simp [heq]
    · rw [if_neg heq]
      simp [heq]

theorem int_log_eq (x : ℚ) (e : ℤ) (hx : 0 < x)
    (h1 : (10:ℚ) ^ e ≤ x) (h2 : x < (10:ℚ) ^ (e+1)) : Int.log 10 x = e := by
  have ha := Int.zpow_log_le_self (b := 10) (R := ℚ) (by norm_num) hx
  have hb := Int.lt_zpow_succ_log_self (b := 10) (R := ℚ) (by norm_num) x
  push_cast at ha hb
  by_contra hne
  rcases lt_or_gt_of_ne hne with hlt | hgt
  · have h3 : (10:ℚ) ^ (Int.log 10 x + 1) ≤ (10:ℚ) ^ e :=
      zpow_le_zpow_right₀ (by norm_num) (by omega)
    linarith
  · have h3 : (10:ℚ) ^ (e+1) ≤ (10:ℚ) ^ (Int.log 10 x) :=
      zpow_le_zpow_right₀ (by norm_num) (by omega)
    linarith

theorem dround_eval (p : ℕ) (x : ℚ) (e m : ℤ)
    (hx : x ≠ 0)
    (h1 : (10:ℚ) ^ e ≤ |x|) (h2 : |x| < (10:ℚ) ^ (e + 1))
    (hm : roundHE (x / (10:ℚ) ^ (e + 1 - p)) = m) :
    dround p x = m * (10:ℚ) ^ (e + 1 - p) := by
  unfold dround
  rw [if_neg hx, int_log_eq |x| e (abs_pos.mpr hx) h1 h2, hm]

theorem dround_two_one : dround 2 1 = 1 := by
  rw [dround_eval 2 1 0 10 (by norm_num) (by norm_num) (by norm_num)
    (by norm_num [roundHE, Int.fract])]
  norm_num

theorem dround_two_two : dround 2 2 = 2 := by
  rw [dround_eval 2 2 0 20 (by norm_num) (by norm_num) (by norm_num)
    (by norm_num [roundHE, Int.fract])]
  norm_num

theorem dround_two_three : dround 2 3 = 3 := by
  rw [dround_eval 2 3 0 30 (by norm_num) (by norm_num) (by norm_num)
    (by norm_num [roundHE, Int.fract])]
  norm_num

theorem dround_two_neg_one : dround 2 (-1) = -1 := by
  rw [dround_eval 2 (-1) 0 (-10) (by norm_num) (by rw [abs_of_neg (by norm_num)]; norm_num)
    (by rw [abs_of_neg (by norm_num)]; norm_num) (by norm_num [roundHE, Int.fract])]
  norm_num

theorem dround_two_neg_third : dround 2 (-(1/3)) = -(33/100) := by
  rw [dround_eval 2 (-(1/3)) (-1) (-33) (by norm_num) (by rw [abs_of_neg (by norm_num)]; norm_num)
    (by rw [abs_of_neg (by norm_num)]; norm_num) (by norm_num [roundHE, Int.fract])]
  norm_num

theorem dround_two_67 : dround 2 (67/100) = 67/100 := by
  rw [dround_eval 2 (67/100) (-1) 67 (by norm_num) (by rw [abs_of_pos (by norm_num)]; norm_num)
    (by rw [abs_of_pos (by norm_num)]; norm_num) (by norm_num [roundHE, Int.fract])]
  norm_num

theorem dround_two_33 : dround 2 (33/100) = 33/100 := by
  rw [dround_eval 2 (33/100) (-1) 33 (by norm_num) (by rw [abs_of_pos (by norm_num)]; norm_num)
    (by rw [abs_of_pos (by norm_num)]; norm_num) (by norm_num [roundHE, Int.fract])]
  norm_num

/-- Counterexample to claim C3 as stated: at precision 2, with `count = 0` the
allocation of the outer range `(0, 1)` succeeds yet returns
`left = 1 > right = 0`, and with an inverted outer range `(1, 0)` and
`count = 1` it succeeds yet returns `left = 0.67 > right = 0.33`. -/
theorem c3_sub_interval_dec_counterexample :
    (calculate_sub_interval_dec 2 0 1 0 = .ok { left := 1, right := 0, increment := 1 } ∧
      ¬ ((1:ℚ) < 0)) ∧
    (calculate_sub_interval_dec 2 1 0 1 =
        .ok { left := 67/100, right := 33/100, increment := -33/100 } ∧
      ¬ ((67:ℚ)/100 < 33/100)) := by
  refine ⟨⟨?_, by norm_num⟩, ⟨?_, by norm_num⟩⟩ <;>
    norm_num [calculate_sub_interval_dec, sub_interval_increment_dec, dround_zero,
      dround_two_one, dround_two_two, dround_two_three, dround_two_neg_one,
      dround_two_neg_third, dround_two_67, dround_two_33]

/-- Witness for the amended C3 at a concrete admissible input. -/
theorem c3_sub_interval_dec_witness :
    2 ≤ 2 ∧ 1 ≤ 1 ∧ (0:ℚ) < 1 ∧
    ((∀ s, calculate_sub_interval_dec 2 0 1 1 = .ok s → s.left < s.right) ∧
      (calculate_sub_interval_dec 2 0 1 1 = .error .intervalTooSmall ↔
        dround 2 ((0:ℚ) + sub_interval_increment_dec 2 0 1 1) =
        dround 2 ((1:ℚ) - sub_interval_increment_dec 2 0 1 1))) :=
  ⟨le_refl 2, le_refl 1, by norm_num, c3_sub_interval_dec 2 0 1 1 (le_refl 2) (le_refl 1)
    (by norm_num)⟩

end NestedIntervals
